import Mathlib

/-!
Verification of the credential lifecycle & verification subsystem
(`src/client/lib/auth.ts` and `src/client/lib/seed-data.ts` URL utilities).

Strings are modelled as `List Char`; JavaScript functions become Lean
functions over that representation; the durable key-value store becomes an
explicit `Store` record threaded through the operations; a `throw` becomes
an `Except` error value returned together with the store as it stood at the
moment of the throw.
-/

namespace CredVault

/-- Shorthand: the character list of a string literal. -/
def str (s : String) : List Char := s.data

/-- The set of characters removed by JavaScript `String.prototype.trim`
(ECMAScript WhiteSpace + LineTerminator), which is also the class matched
by `\s` in the email regular expression. -/
def isJsWhitespace (c : Char) : Bool :=
  c = ' ' || c = '\t' || c = '\n' || c = '\r' ||
  c.toNat == 11 || c.toNat == 12 ||
  c.toNat == 0xA0 || c.toNat == 0x1680 ||
  (0x2000 ≤ c.toNat && c.toNat ≤ 0x200A) ||
  c.toNat == 0x2028 || c.toNat == 0x2029 ||
  c.toNat == 0x202F || c.toNat == 0x205F ||
  c.toNat == 0x3000 || c.toNat == 0xFEFF

/-- JavaScript `s.trim()`: drop leading and trailing whitespace. -/
def trimList (l : List Char) : List Char :=
  (((l.dropWhile isJsWhitespace).reverse).dropWhile isJsWhitespace).reverse

/-- `trimmed.startsWith("0x")`. -/
def startsWith0x : List Char → Bool
  | '0' :: 'x' :: _ => true
  | _ => false

/-- One hexadecimal character, the class `[a-fA-F0-9]`. -/
def isHexCharB (c : Char) : Bool :=
  ('0' ≤ c && c ≤ '9') || ('a' ≤ c && c ≤ 'f') || ('A' ≤ c && c ≤ 'F')

/-- The character class `[a-zA-Z0-9_-]` of the named-wallet regular expression. -/
def isAptNameChar (c : Char) : Bool :=
  ('a' ≤ c && c ≤ 'z') || ('A' ≤ c && c ≤ 'Z') || ('0' ≤ c && c ≤ '9') ||
  c = '_' || c = '-'

/-- JavaScript `l.includes(pat)`: substring containment. -/
def containsList (l pat : List Char) : Bool :=
  match l with
  | [] => pat.isEmpty
  | _ :: rest => pat.isPrefixOf l || containsList rest pat

/-- The test `/^0x[a-fA-F0-9]{1,64}$/.test(trimmed)`. -/
def hexWalletTest : List Char → Bool
  | '0' :: 'x' :: rest =>
    !rest.isEmpty && decide (rest.length ≤ 64) && rest.all isHexCharB
  | _ => false

/-- The test `/^[a-zA-Z0-9_-]+\.apt$/.test(trimmed)`: a non-empty body of
name characters followed by the literal suffix `.apt`. -/
def aptWalletTest (t : List Char) : Bool :=
  decide (5 ≤ t.length) &&
  (t.drop (t.length - 4) == str ".apt") &&
  (t.take (t.length - 4)).all isAptNameChar

/-- `isValidWalletAddress` from the URL-utilities module (`seed-data.ts`):
reject empty input, trim, then either the hex form (when the trimmed string
starts with `0x`), the named `.apt` form (when it contains `.apt`), or any
trimmed string of length 6 to 100. -/
def isValidWalletAddress (address : List Char) : Bool :=
  if address = [] then false
  else
    let trimmed := trimList address
    if startsWith0x trimmed then hexWalletTest trimmed
    else if containsList trimmed (str ".apt") then aptWalletTest trimmed
    else decide (6 ≤ trimmed.length) && decide (trimmed.length ≤ 100)

/-- `isValidWallet` from the auth module (`auth.ts`); its body is
textually identical to `isValidWalletAddress` in `seed-data.ts`. -/
def isValidWallet (address : List Char) : Bool :=
  if address = [] then false
  else
    let trimmed := trimList address
    if startsWith0x trimmed then hexWalletTest trimmed
    else if containsList trimmed (str ".apt") then aptWalletTest trimmed
    else decide (6 ≤ trimmed.length) && decide (trimmed.length ≤ 100)

/-- The wallet-address contract as the specification words it: trim, then
accept exactly the hex form, the named form when the string contains
`.apt`, or any trimmed string of length 6 to 100 inclusive. -/
def isValidWalletSpec (address : List Char) : Bool :=
  let trimmed := trimList address
  if startsWith0x trimmed then hexWalletTest trimmed
  else if containsList trimmed (str ".apt") then aptWalletTest trimmed
  else decide (6 ≤ trimmed.length) && decide (trimmed.length ≤ 100)

/-- `isValidCredentialId` (`seed-data.ts`): non-empty input whose trimmed
form is non-empty and of length at most 100. -/
def isValidCredentialId (id : List Char) : Bool :=
  if id = [] then false
  else
    let trimmed := trimList id
    decide (0 < trimmed.length) && decide (trimmed.length ≤ 100)

/-- `sanitizeUrlForDisplay` (`seed-data.ts`).  JavaScript computes
`url.substring(0, maxLength / 2)` and `url.substring(url.length -
maxLength / 2)` with real-number division truncated toward zero by
`substring`; over naturals, the first index is `maxLength / 2` (floor) and
the second is `url.length - (maxLength + 1) / 2` (truncation of
`url.length - maxLength / 2`). -/
def sanitizeUrlForDisplay (url : List Char) (maxLength : Nat) : List Char :=
  if url.length ≤ maxLength then url
  else
    url.take (maxLength / 2) ++ str "..." ++
    url.drop (url.length - (maxLength + 1) / 2)

/-! ## The verification-URL wire format

`generateVerificationUrl` builds its query string with `URLSearchParams`,
whose `toString` is the `application/x-www-form-urlencoded` serializer:
each name and value is UTF-8 encoded and every byte outside the serializer's
safe set is percent-escaped (space becomes `+`).  `parseUrlParams` reads the
query back through `URLSearchParams` as well: split on `&`, split each piece
at the first `=`, turn `+` back into space, percent-decode, UTF-8 decode. -/

/-- UTF-8 encoding of one scalar value, as a list of bytes (each `< 256`). -/
def utf8Encode (c : Char) : List Nat :=
  let n := c.toNat
  if n < 0x80 then [n]
  else if n < 0x800 then [0xC0 + n / 64, 0x80 + n % 64]
  else if n < 0x10000 then [0xE0 + n / 4096, 0x80 + n / 64 % 64, 0x80 + n % 64]
  else [0xF0 + n / 0x40000, 0x80 + n / 4096 % 64, 0x80 + n / 64 % 64, 0x80 + n % 64]

/-- Bytes the urlencoded serializer emits unescaped:
`*`, `-`, `.`, digits, `_`, ASCII letters. -/
def isUrlSafeByte (b : Nat) : Bool :=
  b == 0x2A || b == 0x2D || b == 0x2E ||
  (0x30 ≤ b && b ≤ 0x39) || (0x41 ≤ b && b ≤ 0x5A) ||
  b == 0x5F || (0x61 ≤ b && b ≤ 0x7A)

/-- Upper-case hexadecimal digit character for `n < 16`. -/
def hexDigitChar (n : Nat) : Char :=
  if n < 10 then Char.ofNat (48 + n) else Char.ofNat (55 + n)

/-- Serialize one byte: safe bytes stand for themselves, space becomes `+`,
everything else is percent-escaped. -/
def byteEncode (b : Nat) : List Char :=
  if isUrlSafeByte b then [Char.ofNat b]
  else if b == 32 then ['+']
  else ['%', hexDigitChar (b / 16), hexDigitChar (b % 16)]

/-- The urlencoded serialization of one name or value. -/
def valueEncode (v : List Char) : List Char :=
  (v.flatMap utf8Encode).flatMap byteEncode

/-- `name=value` with both sides encoded. -/
def serializePair (p : List Char × List Char) : List Char :=
  valueEncode p.1 ++ '=' :: valueEncode p.2

/-- `URLSearchParams.toString()`: the pairs joined with `&`, in insertion
order. -/
def serializeParams : List (List Char × List Char) → List Char
  | [] => []
  | [p] => serializePair p
  | p :: rest => serializePair p ++ '&' :: serializeParams rest

/-- Errors thrown by the URL generators: "Wallet address and credential ID
are required" and "Invalid wallet address format". -/
inductive UrlErr
  | MissingField
  | InvalidWalletAddress
deriving DecidableEq

/-- `generateVerificationUrl` (`seed-data.ts`): reject an empty raw
argument, trim both, validate the trimmed wallet address, then emit
`{baseUrl}/verify?address=...&credentialId=...` with both parameters
urlencoded, `address` first.  The `baseUrl` argument stands for
`baseUrl || window.location.origin`. -/
def generateVerificationUrl (walletAddress credentialId baseUrl : List Char) :
    Except UrlErr (List Char) :=
  if walletAddress = [] ∨ credentialId = [] then .error .MissingField
  else
    let cleanAddress := trimList walletAddress
    let cleanCredentialId := trimList credentialId
    if !isValidWalletAddress cleanAddress then .error .InvalidWalletAddress
    else
      .ok (baseUrl ++ str "/verify?" ++
        serializeParams
          [(str "address", cleanAddress), (str "credentialId", cleanCredentialId)])

/-- Value of a hexadecimal digit character. -/
def hexCharVal (c : Char) : Nat :=
  if '0' ≤ c && c ≤ '9' then c.toNat - 48
  else if 'a' ≤ c && c ≤ 'f' then c.toNat - 87
  else if 'A' ≤ c && c ≤ 'F' then c.toNat - 55
  else 0

/-- The urlencoded byte-level parse of one name or value: `+` is a space,
`%hh` is the byte `hh`, any other character stands for its own code
(inputs produced by the serializer are all ASCII). -/
def percentDecode : List Char → List Nat
  | [] => []
  | c :: rest =>
    if c = '%' then
      match rest with
      | h :: l :: rest2 =>
        if isHexCharB h && isHexCharB l then
          (hexCharVal h * 16 + hexCharVal l) :: percentDecode rest2
        else c.toNat :: percentDecode (h :: l :: rest2)
      | [h] => c.toNat :: percentDecode [h]
      | [] => [c.toNat]
    else if c = '+' then 32 :: percentDecode rest
    else c.toNat :: percentDecode rest

/-- Streaming UTF-8 decoder: `need` counts continuation bytes still
expected, `acc` holds the partial scalar value.  A lead byte selects the
sequence length from its high bits; each continuation byte contributes its
low six bits.  Well-formed sequences (everything the encoder produces)
decode exactly; malformed sequences are handled loosely, which the
round-trip theorems never rely on. -/
def utf8DecodeAux : Nat → Nat → List Nat → List Char
  | _, _, [] => []
  | 0, _, b :: rest =>
    if b < 0x80 then Char.ofNat b :: utf8DecodeAux 0 0 rest
    else if b < 0xE0 then utf8DecodeAux 1 (b % 32) rest
    else if b < 0xF0 then utf8DecodeAux 2 (b % 16) rest
    else utf8DecodeAux 3 (b % 8) rest
  | 1, acc, b :: rest => Char.ofNat (acc * 64 + b % 64) :: utf8DecodeAux 0 0 rest
  | 2, acc, b :: rest => utf8DecodeAux 1 (acc * 64 + b % 64) rest
  | _ + 3, acc, b :: rest => utf8DecodeAux 2 (acc * 64 + b % 64) rest

/-- UTF-8 decoding of a byte list back to characters. -/
def utf8Decode (bs : List Nat) : List Char := utf8DecodeAux 0 0 bs

/-- Full decoding of one urlencoded name or value. -/
def valueDecode (s : List Char) : List Char := utf8Decode (percentDecode s)

/-- Split a character list at every occurrence of `sep` (the result always
has one more piece than there are separators). -/
def splitOnChar (sep : Char) : List Char → List (List Char)
  | [] => [[]]
  | c :: rest =>
    match splitOnChar sep rest with
    | [] => [[]]
    | s :: ss => if c = sep then [] :: s :: ss else (c :: s) :: ss

/-- Split one `name=value` piece at the first `=`; a piece with no `=` is
all name, empty value. -/
def splitKV : List Char → List Char × List Char
  | [] => ([], [])
  | c :: rest =>
    if c = '=' then ([], rest)
    else
      let p := splitKV rest
      (c :: p.1, p.2)

/-- The urlencoded parser over a query string (no leading `?`): split on
`&`, skip empty pieces, split each piece at its first `=`, decode both
sides. -/
def parseQuery (s : List Char) : List (List Char × List Char) :=
  ((splitOnChar '&' s).filter (fun seg => !seg.isEmpty)).map
    (fun seg => (valueDecode (splitKV seg).1, valueDecode (splitKV seg).2))

/-- `URLSearchParams.get`: the value of the first pair with the given name,
or `none`. -/
def getParam (pairs : List (List Char × List Char)) (name : List Char) :
    Option (List Char) :=
  (pairs.find? (fun p => p.1 == name)).map (fun p => p.2)

/-- The record returned by `parseUrlParams` (`seed-data.ts`). -/
structure CredentialParams where
  address : Option (List Char)
  credentialId : Option (List Char)
  type : Option (List Char)
  issuer : Option (List Char)
deriving DecidableEq

/-- `urlParams.get(name) || undefined`: an absent parameter or an empty
string both become `undefined`. -/
def getOrUndefined (pairs : List (List Char × List Char)) (name : List Char) :
    Option (List Char) :=
  match getParam pairs name with
  | some v => if v = [] then none else some v
  | none => none

/-- `URLSearchParams` ignores a single leading `?` of `location.search`. -/
def stripLeadingQuestion : List Char → List Char
  | '?' :: rest => rest
  | s => s

/-- `parseUrlParams` (`seed-data.ts`), applied to the current location's
query string (`window.location.search`, passed here explicitly). -/
def parseUrlParams (search : List Char) : CredentialParams :=
  let pairs := parseQuery (stripLeadingQuestion search)
  { address := getOrUndefined pairs (str "address")
    credentialId := getOrUndefined pairs (str "credentialId")
    type := getOrUndefined pairs (str "type")
    issuer := getOrUndefined pairs (str "issuer") }

/-- `location.search` of a URL: everything from the first `?` on (empty if
the URL has no `?`). -/
def searchOf (url : List Char) : List Char := url.dropWhile (fun c => c != '?')

/-! ## The identity store and credential ledger (`auth.ts`)

The four `localStorage` keys become the four fields of `Store`.  Every
operation takes the store and returns it alongside its result; a thrown
`Error` becomes an `Except.error` paired with the store as it stood when
the throw happened.  Timestamps (`new Date().toISOString()`, `Date.now()`)
and random ids (`generateUserId`, `cred_…`, `req_…`) are inputs. -/

/-- ASCII case folding of one character; models `toLowerCase` on the email
alphabet. -/
def toLowerChar (c : Char) : Char :=
  if 'A' ≤ c && c ≤ 'Z' then Char.ofNat (c.toNat + 32) else c

/-- `s.toLowerCase()`. -/
def lowerList (l : List Char) : List Char := l.map toLowerChar

/-- `role: "student" | "staff" | "issuer"`. -/
inductive Role
  | student
  | staff
  | issuer
deriving DecidableEq

/-- `UserProfile` (the authenticated session record). -/
structure UserProfile where
  id : List Char
  name : List Char
  email : List Char
  walletAddress : List Char
  role : Role
  organization : Option (List Char)
  institution : Option (List Char)
  createdAt : List Char
deriving DecidableEq

/-- `StoredUser`: the durable registry counterpart of `UserProfile`. -/
structure StoredUser where
  id : List Char
  name : List Char
  email : List Char
  walletAddress : List Char
  role : Role
  organization : Option (List Char)
  institution : Option (List Char)
  createdAt : List Char
deriving DecidableEq

/-- `status: "issued" | "pending" | "revoked"` of an issued credential. -/
inductive CredStatus
  | issued
  | pending
  | revoked
deriving DecidableEq

/-- `IssuedCredential`. -/
structure IssuedCredential where
  id : List Char
  title : List Char
  description : List Char
  studentWalletAddress : List Char
  issuerWalletAddress : List Char
  issuerName : List Char
  issuerInstitution : List Char
  issuedDate : List Char
  status : CredStatus
deriving DecidableEq

/-- `status: "pending" | "approved" | "rejected"` of a credential request. -/
inductive ReqStatus
  | pending
  | approved
  | rejected
deriving DecidableEq

/-- `CredentialRequest`. -/
structure CredentialRequest where
  id : List Char
  studentName : List Char
  studentEmail : List Char
  studentWalletAddress : List Char
  issuerWalletAddress : List Char
  issuerName : List Char
  issuerInstitution : List Char
  credentialTitle : List Char
  description : List Char
  requestDate : List Char
  status : ReqStatus
  rejectionNote : Option (List Char)
deriving DecidableEq

/-- The four durable records: current-session profile, registered users,
issued credentials, credential requests. -/
structure Store where
  currentProfile : Option UserProfile
  registeredUsers : List StoredUser
  issuedCredentials : List IssuedCredential
  credentialRequests : List CredentialRequest
deriving DecidableEq

/-- The empty store: nothing persisted yet. -/
def emptyStore : Store := ⟨none, [], [], []⟩

/-- Errors thrown by the auth module, by message: "Invalid email format",
"Invalid wallet address format", "User with this email already exists",
"Request not found", "Request is not pending". -/
inductive AuthErr
  | InvalidEmail
  | InvalidWallet
  | DuplicateUser
  | RequestNotFound
  | RequestNotPending
deriving DecidableEq

/-- A character allowed by the `[^\s@]` classes of the email regular
expression: anything but whitespace and `@`. -/
def isEmailChar (c : Char) : Bool := !isJsWhitespace c && c != '@'

/-- `isValidEmail` (`auth.ts`): the test
`/^[^\s@]+@[^\s@]+\.[^\s@]+$/.test(email)` — exactly one `@`, both sides
non-empty and free of whitespace, and the part after the `@` containing a
`.` that is neither its first nor its last character. -/
def isValidEmail (s : List Char) : Bool :=
  match splitOnChar '@' s with
  | [p1, p2] =>
    !p1.isEmpty && p1.all isEmailChar && p2.all isEmailChar &&
    ((p2.drop 1).dropLast.contains '.')
  | _ => false

/-- `getCurrentUser`: read the session slot. -/
def getCurrentUser (s : Store) : Option UserProfile := s.currentProfile

/-- `findUserByEmail`: first registered user whose lower-cased email
matches the lower-cased argument. -/
def findUserByEmail (users : List StoredUser) (email : List Char) :
    Option StoredUser :=
  users.find? (fun u => lowerList u.email == lowerList email)

/-- `findUserByEmailAndWallet`: lower-cased email match and exact wallet
match. -/
def findUserByEmailAndWallet (users : List StoredUser)
    (email walletAddress : List Char) : Option StoredUser :=
  users.find? (fun u =>
    lowerList u.email == lowerList email && u.walletAddress == walletAddress)

/-- `saveToRegisteredUsers`: drop any user with the same exact email, then
push. -/
def saveToRegisteredUsers (users : List StoredUser) (user : StoredUser) :
    List StoredUser :=
  users.filter (fun u => !(u.email == user.email)) ++ [user]

/-- The `UserProfile` object literal each sign-in builds from a stored
user. -/
def profileOfStored (u : StoredUser) : UserProfile :=
  ⟨u.id, u.name, u.email, u.walletAddress, u.role, u.organization,
   u.institution, u.createdAt⟩

/-- `StudentSignIn` data. -/
structure StudentSignInData where
  email : List Char
  walletAddress : List Char

/-- `signInStudent`: validate the email and wallet formats (throwing on
failure), look up by email *and* wallet, return `null` on no match or role
mismatch, otherwise establish the session and return the profile. -/
def signInStudent (s : Store) (data : StudentSignInData) :
    Except AuthErr (Option UserProfile) × Store :=
  if !isValidEmail data.email then (.error .InvalidEmail, s)
  else if !isValidWallet data.walletAddress then (.error .InvalidWallet, s)
  else
    match findUserByEmailAndWallet s.registeredUsers data.email data.walletAddress with
    | none => (.ok none, s)
    | some user =>
      if user.role != Role.student then (.ok none, s)
      else
        let profile := profileOfStored user
        (.ok (some profile), { s with currentProfile := some profile })

/-- `signInStaff`: validate the email (throwing on failure), look up by
email alone, return `null` on no match or role mismatch, otherwise
establish the session. -/
def signInStaff (s : Store) (email : List Char) :
    Except AuthErr (Option UserProfile) × Store :=
  if !isValidEmail email then (.error .InvalidEmail, s)
  else
    match findUserByEmail s.registeredUsers email with
    | none => (.ok none, s)
    | some user =>
      if user.role != Role.staff then (.ok none, s)
      else
        let profile := profileOfStored user
        (.ok (some profile), { s with currentProfile := some profile })

/-- `signInIssuer`: like `signInStaff` with the issuer role. -/
def signInIssuer (s : Store) (email : List Char) :
    Except AuthErr (Option UserProfile) × Store :=
  if !isValidEmail email then (.error .InvalidEmail, s)
  else
    match findUserByEmail s.registeredUsers email with
    | none => (.ok none, s)
    | some user =>
      if user.role != Role.issuer then (.ok none, s)
      else
        let profile := profileOfStored user
        (.ok (some profile), { s with currentProfile := some profile })

/-- `StudentRegistration` data. -/
structure StudentRegistrationData where
  name : List Char
  email : List Char
  walletAddress : List Char

/-- `StaffRegistration` data. -/
structure StaffRegistrationData where
  name : List Char
  email : List Char
  walletAddress : List Char
  organization : List Char

/-- `IssuerRegistration` data. -/
structure IssuerRegistrationData where
  name : List Char
  email : List Char
  walletAddress : List Char
  institution : List Char

/-- `registerStudent`: fail when a user with the same (lower-cased) email
exists, otherwise build the profile with a fresh id and timestamp, save it
to the registry and return it without touching the session slot. -/
def registerStudent (s : Store) (data : StudentRegistrationData)
    (newId now : List Char) : Except AuthErr UserProfile × Store :=
  match findUserByEmail s.registeredUsers data.email with
  | some _ => (.error .DuplicateUser, s)
  | none =>
    let profile : UserProfile :=
      ⟨newId, data.name, data.email, data.walletAddress, Role.student,
       none, none, now⟩
    let storedUser : StoredUser :=
      ⟨profile.id, profile.name, profile.email, profile.walletAddress,
       profile.role, none, none, profile.createdAt⟩
    (.ok profile,
     { s with registeredUsers := saveToRegisteredUsers s.registeredUsers storedUser })

/-- `registerStaff`: as `registerStudent`, with the staff role and the
organization field. -/
def registerStaff (s : Store) (data : StaffRegistrationData)
    (newId now : List Char) : Except AuthErr UserProfile × Store :=
  match findUserByEmail s.registeredUsers data.email with
  | some _ => (.error .DuplicateUser, s)
  | none =>
    let profile : UserProfile :=
      ⟨newId, data.name, data.email, data.walletAddress, Role.staff,
       some data.organization, none, now⟩
    let storedUser : StoredUser :=
      ⟨profile.id, profile.name, profile.email, profile.walletAddress,
       profile.role, profile.organization, none, profile.createdAt⟩
    (.ok profile,
     { s with registeredUsers := saveToRegisteredUsers s.registeredUsers storedUser })

/-- `registerIssuer`: as `registerStudent`, with the issuer role and the
institution field. -/
def registerIssuer (s : Store) (data : IssuerRegistrationData)
    (newId now : List Char) : Except AuthErr UserProfile × Store :=
  match findUserByEmail s.registeredUsers data.email with
  | some _ => (.error .DuplicateUser, s)
  | none =>
    let profile : UserProfile :=
      ⟨newId, data.name, data.email, data.walletAddress, Role.issuer,
       none, some data.institution, now⟩
    let storedUser : StoredUser :=
      ⟨profile.id, profile.name, profile.email, profile.walletAddress,
       profile.role, none, profile.institution, profile.createdAt⟩
    (.ok profile,
     { s with registeredUsers := saveToRegisteredUsers s.registeredUsers storedUser })

/-- The fields of a credential request supplied by the caller of
`submitCredentialRequest` (`Omit<CredentialRequest, "id" | "requestDate" |
"status">`). -/
structure CredentialRequestInput where
  studentName : List Char
  studentEmail : List Char
  studentWalletAddress : List Char
  issuerWalletAddress : List Char
  issuerName : List Char
  issuerInstitution : List Char
  credentialTitle : List Char
  description : List Char
  rejectionNote : Option (List Char)

/-- `submitCredentialRequest`: assign id, date and `pending` status, push
onto the requests list. -/
def submitCredentialRequest (s : Store) (input : CredentialRequestInput)
    (newId now : List Char) : CredentialRequest × Store :=
  let newRequest : CredentialRequest :=
    ⟨newId, input.studentName, input.studentEmail, input.studentWalletAddress,
     input.issuerWalletAddress, input.issuerName, input.issuerInstitution,
     input.credentialTitle, input.description, now, ReqStatus.pending,
     input.rejectionNote⟩
  (newRequest, { s with credentialRequests := s.credentialRequests ++ [newRequest] })

/-- The credential record `saveIssuedCredential` builds inside
`approveCredentialRequest`: the request's fields plus a fresh id and date
and status `issued`. -/
def credentialOfRequest (request : CredentialRequest) (credId credDate : List Char) :
    IssuedCredential :=
  ⟨credId, request.credentialTitle, request.description,
   request.studentWalletAddress, request.issuerWalletAddress,
   request.issuerName, request.issuerInstitution, credDate,
   CredStatus.issued⟩

/-- `approveCredentialRequest`: find the request by id (`findIndex`),
throw `RequestNotFound` when absent and `RequestNotPending` when its
status is not `pending`; otherwise mark it approved in place, then append
the issued credential (`saveIssuedCredential`), returning both. -/
def approveCredentialRequest (s : Store) (requestId credId credDate : List Char) :
    Except AuthErr (CredentialRequest × IssuedCredential) × Store :=
  let requests := s.credentialRequests
  match requests.findIdx? (fun req => req.id == requestId) with
  | none => (.error .RequestNotFound, s)
  | some requestIndex =>
    match requests.get? requestIndex with
    | none => (.error .RequestNotFound, s)
    | some request =>
      if request.status != ReqStatus.pending then (.error .RequestNotPending, s)
      else
        let updated := { request with status := ReqStatus.approved }
        let s1 := { s with credentialRequests := requests.set requestIndex updated }
        let credential := credentialOfRequest request credId credDate
        let s2 := { s1 with issuedCredentials := s1.issuedCredentials ++ [credential] }
        (.ok (updated, credential), s2)

/-- `rejectCredentialRequest`: the same existence and pending checks as
approve; set status `rejected` and store the note (defaulted to
"Request was rejected" when omitted). -/
def rejectCredentialRequest (s : Store) (requestId : List Char)
    (rejectionNote : Option (List Char)) :
    Except AuthErr CredentialRequest × Store :=
  let requests := s.credentialRequests
  match requests.findIdx? (fun req => req.id == requestId) with
  | none => (.error .RequestNotFound, s)
  | some requestIndex =>
    match requests.get? requestIndex with
    | none => (.error .RequestNotFound, s)
    | some request =>
      if request.status != ReqStatus.pending then (.error .RequestNotPending, s)
      else
        let updated :=
          { request with
              status := ReqStatus.rejected,
              rejectionNote :=
                some (rejectionNote.getD (str "Request was rejected")) }
        (.ok updated, { s with credentialRequests := requests.set requestIndex updated })

/-- The registry invariant: at most one stored user per lower-cased
email. -/
def EmailsUnique (users : List StoredUser) : Prop :=
  users.Pairwise (fun a b => lowerList a.email ≠ lowerList b.email)

/-- A sample registered student, used to instantiate the theorems at
concrete inputs. -/
def sampleStudent : StoredUser :=
  ⟨str "u1", str "Alex", str "a@b.c", str "0xAB", Role.student, none, none,
   str "t0"⟩

/-- A sample registered staff member. -/
def sampleStaff : StoredUser :=
  ⟨str "u2", str "Sarah", str "s@u.e", str "0xCD", Role.staff,
   some (str "Uni"), none, str "t0"⟩

/-- A sample registered issuer. -/
def sampleIssuer : StoredUser :=
  ⟨str "u3", str "Dr. M", str "i@t.e", str "0x98", Role.issuer, none,
   some (str "TechAcademy"), str "t0"⟩

/-- A sample store holding the three sample users. -/
def sampleStore : Store := ⟨none, [sampleStudent, sampleStaff, sampleIssuer], [], []⟩

/-- A sample credential-request input. -/
def sampleInput : CredentialRequestInput :=
  ⟨str "Alex", str "a@b.c", str "0xAB", str "0xEF", str "Dr", str "Inst",
   str "Cert", str "Desc", none⟩

end CredVault

deriving instance DecidableEq for Except

namespace CredVault

/-! ## Helper lemmas -/

theorem char_toNat_lt (c : Char) : c.toNat < 0x110000 := by
  rcases c.valid with h | ⟨_, h2⟩
  · exact Nat.lt_trans h (by decide)
  · exact h2

theorem toNat_ofNat_of_lt {n : Nat} (h : n < 0xd800) : (Char.ofNat n).toNat = n := by
  rw [Char.ofNat, dif_pos (Or.inl h : n.isValidChar)]
  rfl

theorem utf8Encode_lt (c : Char) : ∀ b ∈ utf8Encode c, b < 256 := by
  have h := char_toNat_lt c
  intro b hb
  simp only [utf8Encode] at hb
  split_ifs at hb with h1 h2 h3
  · simp at hb; omega
  · simp at hb; rcases hb with rfl | rfl <;> omega
  · simp at hb; rcases hb with rfl | rfl | rfl <;> omega
  · simp at hb; rcases hb with rfl | rfl | rfl | rfl <;> omega

theorem utf8Decode_encode_append (c : Char) (rest : List Nat) :
    utf8Decode (utf8Encode c ++ rest) = c :: utf8Decode rest := by
  have hlt := char_toNat_lt c
  unfold utf8Decode
  simp only [utf8Encode]
  by_cases h1 : c.toNat < 0x80
  · rw [if_pos h1]
    simp only [List.cons_append, List.nil_append, utf8DecodeAux]
    rw [if_pos h1, Char.ofNat_toNat]
    rfl
  · rw [if_neg h1]
    by_cases h2 : c.toNat < 0x800
    · rw [if_pos h2]
      simp only [List.cons_append, List.nil_append, utf8DecodeAux]
      rw [if_neg (by omega), if_pos (by omega)]
      have hv : (0xC0 + c.toNat / 64) % 32 * 64 + (0x80 + c.toNat % 64) % 64 = c.toNat := by
        omega
      rw [hv, Char.ofNat_toNat]
      rfl
    · rw [if_neg h2]
      by_cases h3 : c.toNat < 0x10000
      · rw [if_pos h3]
        simp only [List.cons_append, List.nil_append, utf8DecodeAux]
        rw [if_neg (by omega), if_neg (by omega), if_pos (by omega)]
        have hv : ((0xE0 + c.toNat / 4096) % 16 * 64 + (0x80 + c.toNat / 64 % 64) % 64) * 64 +
            (0x80 + c.toNat % 64) % 64 = c.toNat := by
          omega
        rw [hv, Char.ofNat_toNat]
        rfl
      · rw [if_neg h3]
        simp only [List.cons_append, List.nil_append, utf8DecodeAux]
        rw [if_neg (by omega), if_neg (by omega), if_neg (by omega)]
        have hv : (((0xF0 + c.toNat / 0x40000) % 8 * 64 +
            (0x80 + c.toNat / 4096 % 64) % 64) * 64 +
            (0x80 + c.toNat / 64 % 64) % 64) * 64 + (0x80 + c.toNat % 64) % 64 = c.toNat := by
          omega
        rw [hv, Char.ofNat_toNat]
        rfl

theorem utf8Decode_flatMap (cs : List Char) (rest : List Nat) :
    utf8Decode (cs.flatMap utf8Encode ++ rest) = cs ++ utf8Decode rest := by
  induction cs with
  | nil => simp
  | cons c cs ih =>
    rw [List.flatMap_cons, List.append_assoc, utf8Decode_encode_append, ih]
    rfl

theorem percentDecode_cons_other {c : Char} (h1 : c ≠ '%') (h2 : c ≠ '+')
    (rest : List Char) :
    percentDecode (c :: rest) = c.toNat :: percentDecode rest := by
  conv_lhs => rw [percentDecode.eq_def]
  simp [h1, h2]

theorem percentDecode_plus (rest : List Char) :
    percentDecode ('+' :: rest) = 32 :: percentDecode rest := by
  conv_lhs => rw [percentDecode.eq_def]
  simp

theorem percentDecode_pct {h l : Char} (hh : isHexCharB h = true)
    (hl : isHexCharB l = true) (rest : List Char) :
    percentDecode ('%' :: h :: l :: rest) =
      (hexCharVal h * 16 + hexCharVal l) :: percentDecode rest := by
  conv_lhs => rw [percentDecode.eq_def]
  simp [hh, hl]

set_option maxRecDepth 4000 in
theorem safeByteChar_spec :
    ∀ b, b < 256 → isUrlSafeByte b = true →
      Char.ofNat b ≠ '%' ∧ Char.ofNat b ≠ '+' ∧ (Char.ofNat b).toNat = b := by
  decide

theorem hexDigitChar_spec :
    ∀ x, x < 16 → isHexCharB (hexDigitChar x) = true ∧ hexCharVal (hexDigitChar x) = x := by
  decide

theorem percentDecode_byteEncode {b : Nat} (hb : b < 256) (rest : List Char) :
    percentDecode (byteEncode b ++ rest) = b :: percentDecode rest := by
  by_cases hs : isUrlSafeByte b = true
  · obtain ⟨h1, h2, h3⟩ := safeByteChar_spec b hb hs
    simp only [byteEncode, if_pos hs, List.cons_append, List.nil_append]
    rw [percentDecode_cons_other h1 h2, h3]
  · by_cases h32 : b = 32
    · subst h32
      simp only [byteEncode, if_neg hs]
      rw [if_pos (by decide), List.cons_append, List.nil_append, percentDecode_plus]
    · have h32b : ¬((b == 32) = true) := by simpa using h32
      simp only [byteEncode, if_neg hs, if_neg h32b, List.cons_append, List.nil_append]
      have hhi := hexDigitChar_spec (b / 16) (by omega)
      have hlo := hexDigitChar_spec (b % 16) (by omega)
      rw [percentDecode_pct hhi.1 hlo.1, hhi.2, hlo.2]
      congr 1
      omega

theorem percentDecode_nil : percentDecode [] = [] := by
  rw [percentDecode.eq_def]

theorem percentDecode_flatMap {bs : List Nat} (h : ∀ b ∈ bs, b < 256)
    (rest : List Char) :
    percentDecode (bs.flatMap byteEncode ++ rest) = bs ++ percentDecode rest := by
  induction bs with
  | nil => simp
  | cons b bs ih =>
    rw [List.flatMap_cons, List.append_assoc,
      percentDecode_byteEncode (h b (by simp)) ,
      ih (fun x hx => h x (by simp [hx]))]
    rfl

theorem valueDecode_valueEncode (v : List Char) : valueDecode (valueEncode v) = v := by
  have hb : ∀ b ∈ v.flatMap utf8Encode, b < 256 := by
    intro b hbm
    rw [List.mem_flatMap] at hbm
    obtain ⟨c, _, hbc⟩ := hbm
    exact utf8Encode_lt c b hbc
  unfold valueDecode valueEncode
  have h1 : percentDecode ((v.flatMap utf8Encode).flatMap byteEncode) =
      v.flatMap utf8Encode := by
    have h2 := percentDecode_flatMap hb ([] : List Char)
    simpa [percentDecode_nil] using h2
  rw [h1, ← List.append_nil (v.flatMap utf8Encode), utf8Decode_flatMap]
  simp [utf8Decode, utf8DecodeAux]

set_option maxRecDepth 4000 in
theorem byteEncode_excl :
    ∀ b, b < 256 → ∀ ch ∈ byteEncode b, ch ≠ '&' ∧ ch ≠ '=' ∧ ch ≠ '?' := by
  decide

theorem valueEncode_excl (v : List Char) :
    ∀ ch ∈ valueEncode v, ch ≠ '&' ∧ ch ≠ '=' ∧ ch ≠ '?' := by
  intro ch hch
  unfold valueEncode at hch
  rw [List.mem_flatMap] at hch
  obtain ⟨b, hb, hch⟩ := hch
  rw [List.mem_flatMap] at hb
  obtain ⟨c, _, hbc⟩ := hb
  exact byteEncode_excl b (utf8Encode_lt c b hbc) ch hch

theorem splitOnChar_ne_nil (sep : Char) (l : List Char) : splitOnChar sep l ≠ [] := by
  cases l with
  | nil => simp [splitOnChar]
  | cons c rest =>
    rcases hr : splitOnChar sep rest with _ | ⟨s, ss⟩
    · simp [splitOnChar, hr]
    · simp only [splitOnChar, hr]
      split <;> simp

theorem splitOnChar_of_not_mem {sep : Char} {xs : List Char} (h : sep ∉ xs) :
    splitOnChar sep xs = [xs] := by
  induction xs with
  | nil => rfl
  | cons c rest ih =>
    have h1 : sep ∉ rest := fun hm => h (List.mem_cons_of_mem _ hm)
    have h2 : ¬(c = sep) := fun e => h (e ▸ List.mem_cons_self c rest)
    simp [splitOnChar, ih h1, h2]

theorem splitOnChar_append {sep : Char} {xs ys : List Char} (h : sep ∉ xs) :
    splitOnChar sep (xs ++ sep :: ys) = xs :: splitOnChar sep ys := by
  induction xs with
  | nil =>
    obtain ⟨s, ss, hr⟩ := List.exists_cons_of_ne_nil (splitOnChar_ne_nil sep ys)
    simp [splitOnChar, hr]
  | cons c rest ih =>
    have h1 : sep ∉ rest := fun hm => h (List.mem_cons_of_mem _ hm)
    have h2 : ¬(c = sep) := fun e => h (e ▸ List.mem_cons_self c rest)
    have ih2 := ih h1
    rcases hr : splitOnChar sep (rest ++ sep :: ys) with _ | ⟨s, ss⟩
    · exact absurd hr (splitOnChar_ne_nil sep _)
    · have hss := ih2
      rw [hr, List.cons.injEq] at hss
      simp [splitOnChar, hr, h2, hss.1, hss.2]

theorem splitKV_append {ks vs : List Char} (h : ('=' : Char) ∉ ks) :
    splitKV (ks ++ '=' :: vs) = (ks, vs) := by
  induction ks with
  | nil => simp [splitKV]
  | cons c rest ih =>
    have h1 : ('=' : Char) ∉ rest := fun hm => h (List.mem_cons_of_mem _ hm)
    have h2 : ¬(c = '=') := fun e => h (e ▸ List.mem_cons_self c rest)
    simp [splitKV, h2, ih h1]

theorem amp_not_mem_segment (k v : List Char) :
    ('&' : Char) ∉ valueEncode k ++ '=' :: valueEncode v := by
  intro hm
  rcases List.mem_append.mp hm with hm | hm
  · exact (valueEncode_excl k _ hm).1 rfl
  · rcases List.mem_cons.mp hm with he | hm
    · exact absurd he (by decide)
    · exact (valueEncode_excl v _ hm).1 rfl

theorem segment_not_empty (k v : List Char) :
    (valueEncode k ++ '=' :: valueEncode v).isEmpty = false := by
  rcases h : valueEncode k with _ | ⟨x, xs⟩ <;> simp [h]

theorem parseQuery_serialize_two (k1 v1 k2 v2 : List Char) :
    parseQuery (serializeParams [(k1, v1), (k2, v2)]) = [(k1, v1), (k2, v2)] := by
  have hser : serializeParams [(k1, v1), (k2, v2)] =
      (valueEncode k1 ++ '=' :: valueEncode v1) ++ '&' ::
        (valueEncode k2 ++ '=' :: valueEncode v2) := rfl
  rw [parseQuery, hser, splitOnChar_append (amp_not_mem_segment k1 v1),
    splitOnChar_of_not_mem (amp_not_mem_segment k2 v2)]
  have hk1 : ('=' : Char) ∉ valueEncode k1 := fun hm => (valueEncode_excl k1 _ hm).2.1 rfl
  have hk2 : ('=' : Char) ∉ valueEncode k2 := fun hm => (valueEncode_excl k2 _ hm).2.1 rfl
  simp [segment_not_empty, splitKV_append hk1, splitKV_append hk2,
    valueDecode_valueEncode]

theorem trimList_eq_nil_of_ws {l : List Char}
    (h : ∀ ch ∈ l, isJsWhitespace ch = true) : trimList l = [] := by
  unfold trimList
  rw [List.dropWhile_eq_nil_iff.mpr h]
  rfl

theorem isValidWalletAddress_ne_nil {a : List Char}
    (h : isValidWalletAddress a = true) : a ≠ [] := by
  rintro rfl
  exact absurd h (by decide)

theorem isValidCredentialId_ne_nil {c : List Char}
    (h : isValidCredentialId c = true) : c ≠ [] := by
  rintro rfl
  exact absurd h (by decide)

/-! ## Claim theorems -/

/-- C7: for every string `u` and positive `n`, `sanitizeUrlForDisplay u n`
returns `u` unchanged when `u.length ≤ n` and otherwise has length at most
`n + 3`; applying the function twice to an already-short string is the
identity.  The function is a total Lean function, so it has no failure
mode. -/
theorem sanitizeUrlForDisplay_spec (u : List Char) (n : Nat) (h : 0 < n) :
    (u.length ≤ n → sanitizeUrlForDisplay u n = u) ∧
    (n < u.length → (sanitizeUrlForDisplay u n).length ≤ n + 3) ∧
    (u.length ≤ n → sanitizeUrlForDisplay (sanitizeUrlForDisplay u n) n = u) := by
  have hdots : (str "...").length = 3 := rfl
  refine ⟨fun hle => ?_, fun hgt => ?_, fun hle => ?_⟩
  · simp [sanitizeUrlForDisplay, hle]
  · simp only [sanitizeUrlForDisplay, if_neg (by omega : ¬u.length ≤ n),
      List.length_append, List.length_take, List.length_drop, hdots]
    omega
  · simp [sanitizeUrlForDisplay, hle]

/-- Witness for C7 at the concrete inputs `"ab"` and `"abcdefgh"` with
`n = 4`. -/
theorem sanitizeUrlForDisplay_spec_witness :
    sanitizeUrlForDisplay (str "ab") 4 = str "ab" ∧
    (sanitizeUrlForDisplay (str "abcdefgh") 4).length ≤ 4 + 3 ∧
    sanitizeUrlForDisplay (sanitizeUrlForDisplay (str "ab") 4) 4 = str "ab" :=
  ⟨(sanitizeUrlForDisplay_spec (str "ab") 4 (by decide)).1 (by decide),
   (sanitizeUrlForDisplay_spec (str "abcdefgh") 4 (by decide)).2.1 (by decide),
   (sanitizeUrlForDisplay_spec (str "ab") 4 (by decide)).2.2 (by decide)⟩

/-- C8: the auth module's `isValidWallet` and the URL module's
`isValidWalletAddress` agree on every string, and both coincide with the
specification's description of the shared contract (trim, then hex form /
named `.apt` form / 6–100-character fallback). -/
theorem wallet_validators_agree (s : List Char) :
    isValidWallet s = isValidWalletAddress s ∧
    isValidWalletAddress s = isValidWalletSpec s := by
  refine ⟨rfl, ?_⟩
  cases s with
  | nil => rfl
  | cons c rest => rfl

/-- C4: `generateVerificationUrl` fails with the missing-field error when
either raw argument is empty, fails with the invalid-wallet error when the
trimmed address fails the validator, and succeeds for every non-empty
credential id once the wallet is valid (the credential id is not
independently validated). -/
theorem generateVerificationUrl_errors (a c base : List Char) :
    ((a = [] ∨ c = []) → generateVerificationUrl a c base = .error .MissingField) ∧
    (a ≠ [] → c ≠ [] → isValidWalletAddress (trimList a) = false →
      generateVerificationUrl a c base = .error .InvalidWalletAddress) ∧
    (a ≠ [] → c ≠ [] → isValidWalletAddress (trimList a) = true →
      generateVerificationUrl a c base =
        .ok (base ++ str "/verify?" ++
          serializeParams
            [(str "address", trimList a), (str "credentialId", trimList c)])) := by
  refine ⟨fun h => ?_, fun h1 h2 h3 => ?_, fun h1 h2 h3 => ?_⟩
  · simp only [generateVerificationUrl, if_pos h]
  · simp [generateVerificationUrl, h1, h2, h3]
  · simp [generateVerificationUrl, h1, h2, h3]

/-- Witness for C4: the three error/success behaviours at concrete
inputs. -/
theorem generateVerificationUrl_errors_witness :
    generateVerificationUrl [] (str "c1") (str "https://app") =
      .error .MissingField ∧
    generateVerificationUrl (str "ab") (str "c1") (str "https://app") =
      .error .InvalidWalletAddress ∧
    generateVerificationUrl (str "0xAB") (str "c1") (str "https://app") =
      .ok (str "https://app" ++ str "/verify?" ++
        serializeParams
          [(str "address", trimList (str "0xAB")),
           (str "credentialId", trimList (str "c1"))]) :=
  ⟨(generateVerificationUrl_errors [] (str "c1") (str "https://app")).1
      (Or.inl rfl),
   (generateVerificationUrl_errors (str "ab") (str "c1") (str "https://app")).2.1
      (by decide) (by decide) (by decide),
   (generateVerificationUrl_errors (str "0xAB") (str "c1") (str "https://app")).2.2
      (by decide) (by decide) (by decide)⟩

/-- C10: `generateVerificationUrl` checks emptiness before trimming — the
missing-field error occurs exactly when a raw argument is the empty
string — so with a valid wallet address and a whitespace-only credential
id the call succeeds and the `credentialId` query parameter of the
resulting URL is the empty string. -/
theorem whitespace_credentialId_spec (a c base : List Char) :
    (generateVerificationUrl a c base = .error .MissingField ↔ (a = [] ∨ c = [])) ∧
    (isValidWalletAddress (trimList a) = true → c ≠ [] →
      (∀ ch ∈ c, isJsWhitespace ch = true) →
      generateVerificationUrl a c base =
        .ok (base ++ str "/verify?address=" ++ valueEncode (trimList a) ++
          str "&credentialId=")) := by
  constructor
  · constructor
    · intro h
      by_contra hne
      rw [not_or] at hne
      rw [generateVerificationUrl, if_neg (by tauto)] at h
      by_cases hv : isValidWalletAddress (trimList a) = true <;> simp [hv] at h
    · intro h
      simp only [generateVerificationUrl, if_pos h]
  · intro hv hcne hws
    have ha : a ≠ [] := by
      rintro rfl
      exact absurd hv (by decide)
    have htc : trimList c = [] := trimList_eq_nil_of_ws hws
    have hor : ¬(a = [] ∨ c = []) := by tauto
    have hser : ∀ t : List Char,
        serializeParams [(str "address", t), (str "credentialId", [])] =
          str "address=" ++ (valueEncode t ++ str "&credentialId=") := fun t => rfl
    have hlit : ∀ z : List Char,
        str "/verify?" ++ (str "address=" ++ z) = str "/verify?address=" ++ z :=
      fun z => rfl
    simp only [generateVerificationUrl, if_neg hor, hv, Bool.not_true,
      Bool.false_eq_true, if_false, htc, hser, List.append_assoc, hlit]

/-- C1 counterexample: `" 0xAB"` passes the wallet validator and `"c1"`
passes the credential-id validator, but parsing the query string of the
generated URL yields the trimmed address `"0xAB"`, not the original
`" 0xAB"` — the round-trip fails for valid inputs carrying whitespace
padding. -/
theorem url_round_trip_counterexample :
    isValidWalletAddress (str " 0xAB") = true ∧
    isValidCredentialId (str "c1") = true ∧
    generateVerificationUrl (str " 0xAB") (str "c1") (str "https://app") =
      .ok (str "https://app/verify?address=0xAB&credentialId=c1") ∧
    (parseUrlParams
        (searchOf (str "https://app/verify?address=0xAB&credentialId=c1"))).address =
      some (str "0xAB") ∧
    some (str "0xAB") ≠ some (str " 0xAB") := by
  decide

/-- C1 (amended): for every wallet address and credential id that pass
their validators and are equal to their own trim, `generateVerificationUrl`
succeeds and `parseUrlParams` applied to the query string of the resulting
URL yields exactly the original address and credential id. -/
theorem url_round_trip_amended (a c base : List Char)
    (ha : isValidWalletAddress a = true) (hc : isValidCredentialId c = true)
    (hta : trimList a = a) (htc : trimList c = c) :
    generateVerificationUrl a c base =
      .ok (base ++ str "/verify" ++
        '?' :: serializeParams [(str "address", a), (str "credentialId", c)]) ∧
    parseUrlParams
        ('?' :: serializeParams [(str "address", a), (str "credentialId", c)]) =
      ⟨some a, some c, none, none⟩ := by
  have hane := isValidWalletAddress_ne_nil ha
  have hcne := isValidCredentialId_ne_nil hc
  constructor
  · have hor : ¬(a = [] ∨ c = []) := by tauto
    have hva : isValidWalletAddress (trimList a) = true := by rw [hta]; exact ha
    have hlit : ∀ t : List Char, str "/verify?" ++ t = str "/verify" ++ '?' :: t :=
      fun t => rfl
    simp only [generateVerificationUrl, if_neg hor, hta, htc, ha, Bool.not_true,
      Bool.false_eq_true, if_false, List.append_assoc, hlit]
  · have hq : stripLeadingQuestion
        ('?' :: serializeParams [(str "address", a), (str "credentialId", c)]) =
        serializeParams [(str "address", a), (str "credentialId", c)] := rfl
    have e_aa : ((str "address" : List Char) == str "address") = true := rfl
    have e_ac : ((str "address" : List Char) == str "credentialId") = false := rfl
    have e_cc : ((str "credentialId" : List Char) == str "credentialId") = true := rfl
    have e_at : ((str "address" : List Char) == str "type") = false := rfl
    have e_ct : ((str "credentialId" : List Char) == str "type") = false := rfl
    have e_ai : ((str "address" : List Char) == str "issuer") = false := rfl
    have e_ci : ((str "credentialId" : List Char) == str "issuer") = false := rfl
    simp only [parseUrlParams, hq, parseQuery_serialize_two]
    simp [getOrUndefined, getParam, List.find?, e_aa, e_ac, e_cc, e_at, e_ct,
      e_ai, e_ci, hane, hcne]

/-- Witness for the amended C1 at the concrete inputs `"0xAB"`, `"c1"`. -/
theorem url_round_trip_amended_witness :
    generateVerificationUrl (str "0xAB") (str "c1") (str "https://app") =
      .ok (str "https://app" ++ str "/verify" ++
        '?' :: serializeParams
          [(str "address", str "0xAB"), (str "credentialId", str "c1")]) ∧
    parseUrlParams
        ('?' :: serializeParams
          [(str "address", str "0xAB"), (str "credentialId", str "c1")]) =
      ⟨some (str "0xAB"), some (str "c1"), none, none⟩ :=
  url_round_trip_amended (str "0xAB") (str "c1") (str "https://app")
    (by decide) (by decide) (by decide) (by decide)

/-- Witness for C10: a whitespace-only credential id with a valid wallet
does not hit the missing-field error and produces an empty `credentialId`
parameter. -/
theorem whitespace_credentialId_spec_witness :
    generateVerificationUrl (str "0xAB") (str " ") (str "https://app") ≠
      .error .MissingField ∧
    generateVerificationUrl (str "0xAB") (str " ") (str "https://app") =
      .ok (str "https://app" ++ str "/verify?address=" ++
        valueEncode (trimList (str "0xAB")) ++ str "&credentialId=") := by
  constructor
  · intro h
    have h2 := (whitespace_credentialId_spec (str "0xAB") (str " ")
      (str "https://app")).1.mp h
    revert h2
    decide
  · exact (whitespace_credentialId_spec (str "0xAB") (str " ")
      (str "https://app")).2 (by decide) (by decide) (by decide)

/-- C9: when `approveCredentialRequest` or `rejectCredentialRequest`
throws — the request id is unknown, or the request is not pending — the
store is left completely unchanged: the error is raised before any
write. -/
theorem lifecycle_error_atomicity (s : Store)
    (requestId credId credDate : List Char) (note : Option (List Char))
    (e : AuthErr) :
    ((approveCredentialRequest s requestId credId credDate).1 = .error e →
      (approveCredentialRequest s requestId credId credDate).2 = s) ∧
    ((rejectCredentialRequest s requestId note).1 = .error e →
      (rejectCredentialRequest s requestId note).2 = s) := by
  constructor
  · intro h
    rcases hidx : s.credentialRequests.findIdx? (fun req => req.id == requestId)
        with _ | i
    · simp [approveCredentialRequest, hidx]
    · rcases hget : s.credentialRequests[i]? with _ | req
      · simp [approveCredentialRequest, hidx, hget]
      · by_cases hst : req.status = ReqStatus.pending
        · simp [approveCredentialRequest, hidx, hget, hst] at h
        · simp [approveCredentialRequest, hidx, hget, hst]
  · intro h
    rcases hidx : s.credentialRequests.findIdx? (fun req => req.id == requestId)
        with _ | i
    · simp [rejectCredentialRequest, hidx]
    · rcases hget : s.credentialRequests[i]? with _ | req
      · simp [rejectCredentialRequest, hidx, hget]
      · by_cases hst : req.status = ReqStatus.pending
        · simp [rejectCredentialRequest, hidx, hget, hst] at h
        · simp [rejectCredentialRequest, hidx, hget, hst]

/-- Witness for C9: approving or rejecting an unknown request id on the
sample store fails and leaves it unchanged. -/
theorem lifecycle_error_atomicity_witness :
    (approveCredentialRequest sampleStore (str "nope") (str "c") (str "t")).2 =
      sampleStore ∧
    (rejectCredentialRequest sampleStore (str "nope") none).2 = sampleStore :=
  ⟨(lifecycle_error_atomicity sampleStore (str "nope") (str "c") (str "t") none
      AuthErr.RequestNotFound).1 (by decide),
   (lifecycle_error_atomicity sampleStore (str "nope") (str "c") (str "t") none
      AuthErr.RequestNotFound).2 (by decide)⟩

theorem saveToRegisteredUsers_of_no_match (users : List StoredUser)
    (user : StoredUser) (h : findUserByEmail users user.email = none) :
    saveToRegisteredUsers users user = users ++ [user] := by
  unfold saveToRegisteredUsers
  congr 1
  apply List.filter_eq_self.mpr
  intro u hu
  have hne := List.find?_eq_none.mp h u hu
  simp only [beq_iff_eq] at hne
  simp only [Bool.not_eq_true', beq_eq_false_iff_ne, ne_eq]
  intro heq
  exact hne (by rw [heq])

/-- C6: registration does not establish a session: for all three roles the
session slot — hence `getCurrentUser` — reads exactly as before, and on
success the operation appends the new stored user to the registry and
returns the new profile. -/
theorem registration_no_session (s : Store) (ds : StudentRegistrationData)
    (df : StaffRegistrationData) (di : IssuerRegistrationData)
    (newId now : List Char) :
    getCurrentUser (registerStudent s ds newId now).2 = getCurrentUser s ∧
    getCurrentUser (registerStaff s df newId now).2 = getCurrentUser s ∧
    getCurrentUser (registerIssuer s di newId now).2 = getCurrentUser s ∧
    (∀ p, (registerStudent s ds newId now).1 = .ok p →
      p = ⟨newId, ds.name, ds.email, ds.walletAddress, Role.student, none, none, now⟩ ∧
      (registerStudent s ds newId now).2.registeredUsers =
        s.registeredUsers ++
          [⟨newId, ds.name, ds.email, ds.walletAddress, Role.student, none, none, now⟩]) ∧
    (∀ p, (registerStaff s df newId now).1 = .ok p →
      p = ⟨newId, df.name, df.email, df.walletAddress, Role.staff,
            some df.organization, none, now⟩ ∧
      (registerStaff s df newId now).2.registeredUsers =
        s.registeredUsers ++
          [⟨newId, df.name, df.email, df.walletAddress, Role.staff,
            some df.organization, none, now⟩]) ∧
    (∀ p, (registerIssuer s di newId now).1 = .ok p →
      p = ⟨newId, di.name, di.email, di.walletAddress, Role.issuer,
            none, some di.institution, now⟩ ∧
      (registerIssuer s di newId now).2.registeredUsers =
        s.registeredUsers ++
          [⟨newId, di.name, di.email, di.walletAddress, Role.issuer,
            none, some di.institution, now⟩]) := by
  refine ⟨?_, ?_, ?_, ?_, ?_, ?_⟩
  · rcases hf : findUserByEmail s.registeredUsers ds.email with _ | u <;>
      simp [registerStudent, getCurrentUser, hf]
  · rcases hf : findUserByEmail s.registeredUsers df.email with _ | u <;>
      simp [registerStaff, getCurrentUser, hf]
  · rcases hf : findUserByEmail s.registeredUsers di.email with _ | u <;>
      simp [registerIssuer, getCurrentUser, hf]
  · intro p hp
    rcases hf : findUserByEmail s.registeredUsers ds.email with _ | u
    · rw [registerStudent] at hp
      rw [hf] at hp
      simp only [Except.ok.injEq] at hp
      refine ⟨hp.symm, ?_⟩
      simp only [registerStudent, hf]
      exact saveToRegisteredUsers_of_no_match _ _ hf
    · rw [registerStudent] at hp
      rw [hf] at hp
      simp at hp
  · intro p hp
    rcases hf : findUserByEmail s.registeredUsers df.email with _ | u
    · rw [registerStaff] at hp
      rw [hf] at hp
      simp only [Except.ok.injEq] at hp
      refine ⟨hp.symm, ?_⟩
      simp only [registerStaff, hf]
      exact saveToRegisteredUsers_of_no_match _ _ hf
    · rw [registerStaff] at hp
      rw [hf] at hp
      simp at hp
  · intro p hp
    rcases hf : findUserByEmail s.registeredUsers di.email with _ | u
    · rw [registerIssuer] at hp
      rw [hf] at hp
      simp only [Except.ok.injEq] at hp
      refine ⟨hp.symm, ?_⟩
      simp only [registerIssuer, hf]
      exact saveToRegisteredUsers_of_no_match _ _ hf
    · rw [registerIssuer] at hp
      rw [hf] at hp
      simp at hp

/-- Witness for C6: registering a fresh student on the sample store leaves
`getCurrentUser` unchanged and appends the new user. -/
theorem registration_no_session_witness :
    getCurrentUser (registerStudent sampleStore
      ⟨str "Mia", str "m@x.y", str "0xFF"⟩ (str "u9") (str "t9")).2 =
      getCurrentUser sampleStore ∧
    (registerStudent sampleStore
      ⟨str "Mia", str "m@x.y", str "0xFF"⟩ (str "u9") (str "t9")).2.registeredUsers =
      sampleStore.registeredUsers ++
        [⟨str "u9", str "Mia", str "m@x.y", str "0xFF", Role.student, none, none,
          str "t9"⟩] :=
  ⟨(registration_no_session sampleStore ⟨str "Mia", str "m@x.y", str "0xFF"⟩
      ⟨str "n", str "e@f.g", str "w", str "o"⟩
      ⟨str "n", str "e@f.g", str "w", str "i"⟩ (str "u9") (str "t9")).1,
   ((registration_no_session sampleStore ⟨str "Mia", str "m@x.y", str "0xFF"⟩
      ⟨str "n", str "e@f.g", str "w", str "o"⟩
      ⟨str "n", str "e@f.g", str "w", str "i"⟩ (str "u9") (str "t9")).2.2.2.1
      ⟨str "u9", str "Mia", str "m@x.y", str "0xFF", Role.student, none, none,
        str "t9"⟩ (by decide)).2⟩

theorem emailsUnique_save {users : List StoredUser} (hu : EmailsUnique users)
    {user : StoredUser} (h : findUserByEmail users user.email = none) :
    EmailsUnique (saveToRegisteredUsers users user) := by
  unfold saveToRegisteredUsers EmailsUnique
  rw [List.pairwise_append]
  refine ⟨hu.filter _, by simp, ?_⟩
  intro a ha b hb
  rw [List.mem_singleton] at hb
  subst hb
  have ha2 := List.mem_of_mem_filter ha
  have hne := List.find?_eq_none.mp h a ha2
  simp only [beq_iff_eq] at hne
  exact hne

theorem findUserByEmail_isSome {users : List StoredUser} {email : List Char}
    (h : ∃ u ∈ users, lowerList u.email = lowerList email) :
    ∃ v, findUserByEmail users email = some v := by
  obtain ⟨u, hu, he⟩ := h
  have h2 : (users.find? (fun u => lowerList u.email == lowerList email)).isSome :=
    List.find?_isSome.mpr ⟨u, hu, by simp [he]⟩
  exact Option.isSome_iff_exists.mp h2

/-- C3: each register operation preserves the one-user-per-lower-cased-
email invariant, and registering an email already present in the registry,
even differing only in letter case, fails with `DuplicateUser` and leaves
the store unchanged. -/
theorem registry_email_unique (s : Store) (ds : StudentRegistrationData)
    (df : StaffRegistrationData) (di : IssuerRegistrationData)
    (newId now : List Char) :
    (EmailsUnique s.registeredUsers →
      EmailsUnique (registerStudent s ds newId now).2.registeredUsers ∧
      EmailsUnique (registerStaff s df newId now).2.registeredUsers ∧
      EmailsUnique (registerIssuer s di newId now).2.registeredUsers) ∧
    ((∃ u ∈ s.registeredUsers, lowerList u.email = lowerList ds.email) →
      registerStudent s ds newId now = (.error .DuplicateUser, s)) ∧
    ((∃ u ∈ s.registeredUsers, lowerList u.email = lowerList df.email) →
      registerStaff s df newId now = (.error .DuplicateUser, s)) ∧
    ((∃ u ∈ s.registeredUsers, lowerList u.email = lowerList di.email) →
      registerIssuer s di newId now = (.error .DuplicateUser, s)) := by
  refine ⟨fun hu => ⟨?_, ?_, ?_⟩, fun hex => ?_, fun hex => ?_, fun hex => ?_⟩
  · rcases hf : findUserByEmail s.registeredUsers ds.email with _ | u
    · simp only [registerStudent, hf]
      exact emailsUnique_save hu hf
    · simp only [registerStudent, hf]
      exact hu
  · rcases hf : findUserByEmail s.registeredUsers df.email with _ | u
    · simp only [registerStaff, hf]
      exact emailsUnique_save hu hf
    · simp only [registerStaff, hf]
      exact hu
  · rcases hf : findUserByEmail s.registeredUsers di.email with _ | u
    · simp only [registerIssuer, hf]
      exact emailsUnique_save hu hf
    · simp only [registerIssuer, hf]
      exact hu
  · obtain ⟨v, hv⟩ := findUserByEmail_isSome hex
    simp [registerStudent, hv]
  · obtain ⟨v, hv⟩ := findUserByEmail_isSome hex
    simp [registerStaff, hv]
  · obtain ⟨v, hv⟩ := findUserByEmail_isSome hex
    simp [registerIssuer, hv]

/-- Witness for C3: the sample registry satisfies the invariant, a fresh
registration preserves it, and re-registering `a@b.c` as `A@B.c` fails
with `DuplicateUser` leaving the store unchanged. -/
theorem registry_email_unique_witness :
    EmailsUnique (registerStudent sampleStore
      ⟨str "Mia", str "m@x.y", str "0xFF"⟩ (str "u9") (str "t9")).2.registeredUsers ∧
    registerStudent sampleStore ⟨str "Mia", str "A@B.c", str "0xFF"⟩
      (str "u9") (str "t9") = (.error .DuplicateUser, sampleStore) :=
  ⟨((registry_email_unique sampleStore ⟨str "Mia", str "m@x.y", str "0xFF"⟩
      ⟨str "n", str "e@f.g", str "w", str "o"⟩
      ⟨str "n", str "e@f.g", str "w", str "i"⟩ (str "u9") (str "t9")).1
      (by unfold EmailsUnique; decide)).1,
   (registry_email_unique sampleStore ⟨str "Mia", str "A@B.c", str "0xFF"⟩
      ⟨str "n", str "e@f.g", str "w", str "o"⟩
      ⟨str "n", str "e@f.g", str "w", str "i"⟩ (str "u9") (str "t9")).2.1
      ⟨sampleStudent, by decide, by decide⟩⟩

/-- C5 counterexample: the sample store holds a student with email
`a@b.c` and wallet `0xAB`; signing in with that email and the different
wallet `"xx"` does not return null — it throws the invalid-wallet-format
error, because the supplied wallet fails the format validator before any
lookup happens. -/
theorem signin_mismatch_counterexample :
    (∃ u ∈ sampleStore.registeredUsers,
      lowerList u.email = lowerList (str "a@b.c") ∧ u.role = Role.student ∧
      u.walletAddress ≠ str "xx") ∧
    (signInStudent sampleStore ⟨str "a@b.c", str "xx"⟩).1 = .error .InvalidWallet ∧
    (signInStudent sampleStore ⟨str "a@b.c", str "xx"⟩).1 ≠ .ok none := by
  decide

/-- C5 (amended): provided the supplied email and wallet address pass
their format validators, a student sign-in whose email matches a
registered student but whose wallet address differs from every stored
wallet under that email returns null (`.ok none`) without error and
leaves the store unchanged; staff and issuer sign-in take no wallet
address at all and match on the email alone. -/
theorem signin_mismatch_amended (s : Store) (email wallet email2 : List Char)
    (he : isValidEmail email = true) (hw : isValidWallet wallet = true)
    (_hmatch : ∃ u ∈ s.registeredUsers,
      lowerList u.email = lowerList email ∧ u.role = Role.student)
    (hmism : ∀ u ∈ s.registeredUsers,
      lowerList u.email = lowerList email → u.walletAddress ≠ wallet) :
    signInStudent s ⟨email, wallet⟩ = (.ok none, s) ∧
    (isValidEmail email2 = true →
      ∀ u, findUserByEmail s.registeredUsers email2 = some u →
        (u.role = Role.staff →
          signInStaff s email2 =
            (.ok (some (profileOfStored u)),
             { s with currentProfile := some (profileOfStored u) })) ∧
        (u.role = Role.issuer →
          signInIssuer s email2 =
            (.ok (some (profileOfStored u)),
             { s with currentProfile := some (profileOfStored u) }))) := by
  constructor
  · have hfind : findUserByEmailAndWallet s.registeredUsers email wallet = none := by
      apply List.find?_eq_none.mpr
      intro u hu
      simp only [Bool.and_eq_true, beq_iff_eq, not_and]
      intro hemail hwal
      exact hmism u hu hemail hwal
    simp [signInStudent, he, hw, hfind]
  · intro he2 u hf
    constructor
    · intro hr
      simp [signInStaff, he2, hf, hr]
    · intro hr
      simp [signInIssuer, he2, hf, hr]

/-- Witness for the amended C5: on the sample store a student sign-in with
a valid but different wallet returns null, and staff/issuer sign-ins by
email alone succeed. -/
theorem signin_mismatch_amended_witness :
    signInStudent sampleStore ⟨str "a@b.c", str "0x9999"⟩ = (.ok none, sampleStore) ∧
    signInStaff sampleStore (str "s@u.e") =
      (.ok (some (profileOfStored sampleStaff)),
       { sampleStore with currentProfile := some (profileOfStored sampleStaff) }) ∧
    signInIssuer sampleStore (str "i@t.e") =
      (.ok (some (profileOfStored sampleIssuer)),
       { sampleStore with currentProfile := some (profileOfStored sampleIssuer) }) := by
  refine ⟨?_, ?_, ?_⟩
  · exact (signin_mismatch_amended sampleStore (str "a@b.c") (str "0x9999")
      (str "s@u.e") (by decide) (by decide)
      ⟨sampleStudent, by decide, by decide, by decide⟩ (by decide)).1
  · exact (((signin_mismatch_amended sampleStore (str "a@b.c") (str "0x9999")
      (str "s@u.e") (by decide) (by decide)
      ⟨sampleStudent, by decide, by decide, by decide⟩ (by decide)).2
      (by decide) sampleStaff (by decide)).1 (by decide))
  · exact (((signin_mismatch_amended sampleStore (str "a@b.c") (str "0x9999")
      (str "i@t.e") (by decide) (by decide)
      ⟨sampleStudent, by decide, by decide, by decide⟩ (by decide)).2
      (by decide) sampleIssuer (by decide)).2 (by decide))

theorem findIdx?_append_singleton {α : Type} (p : α → Bool) (xs : List α)
    (y : α) (h : ∀ x ∈ xs, p x = false) (hy : p y = true) :
    (xs ++ [y]).findIdx? p = some xs.length := by
  rw [List.findIdx?_append, List.findIdx?_eq_none_iff.mpr h]
  simp [List.findIdx?_cons, hy]

theorem approve_of_requests_eq {s1 : Store} {xs : List CredentialRequest}
    {R : CredentialRequest} {requestId : List Char}
    (hreq : s1.credentialRequests = xs ++ [R])
    (hfr : ∀ r ∈ xs, r.id ≠ R.id) (hid : R.id = requestId)
    (hp : R.status = ReqStatus.pending) (credId credDate : List Char) :
    approveCredentialRequest s1 requestId credId credDate =
      (.ok ({ R with status := ReqStatus.approved },
            credentialOfRequest R credId credDate),
       { s1 with
          credentialRequests := xs ++ [{ R with status := ReqStatus.approved }],
          issuedCredentials :=
            s1.issuedCredentials ++ [credentialOfRequest R credId credDate] }) := by
  have hpf : ∀ r ∈ xs, (r.id == requestId) = false := by
    intro r hr
    simp [← hid, hfr r hr]
  have hidx : (xs ++ [R]).findIdx? (fun req => req.id == requestId) =
      some xs.length :=
    findIdx?_append_singleton _ _ _ hpf (by simp [hid])
  have hget : (xs ++ [R])[xs.length]? = some R := List.getElem?_concat_length xs R
  have hset : (xs ++ [R]).set xs.length { R with status := ReqStatus.approved } =
      xs ++ [{ R with status := ReqStatus.approved }] := by
    simp
  simp [approveCredentialRequest, hreq, hidx, hget, hset, hp]

theorem approve_nonpending {s1 : Store} {xs : List CredentialRequest}
    {R : CredentialRequest} {requestId : List Char}
    (hreq : s1.credentialRequests = xs ++ [R])
    (hfr : ∀ r ∈ xs, r.id ≠ R.id) (hid : R.id = requestId)
    (hp : R.status ≠ ReqStatus.pending) (credId credDate : List Char) :
    (approveCredentialRequest s1 requestId credId credDate).1 =
      .error .RequestNotPending := by
  have hpf : ∀ r ∈ xs, (r.id == requestId) = false := by
    intro r hr
    simp [← hid, hfr r hr]
  have hidx : (xs ++ [R]).findIdx? (fun req => req.id == requestId) =
      some xs.length :=
    findIdx?_append_singleton _ _ _ hpf (by simp [hid])
  have hget : (xs ++ [R])[xs.length]? = some R := List.getElem?_concat_length xs R
  simp [approveCredentialRequest, hreq, hidx, hget, hp]

theorem reject_nonpending {s1 : Store} {xs : List CredentialRequest}
    {R : CredentialRequest} {requestId : List Char}
    (hreq : s1.credentialRequests = xs ++ [R])
    (hfr : ∀ r ∈ xs, r.id ≠ R.id) (hid : R.id = requestId)
    (hp : R.status ≠ ReqStatus.pending) (note : Option (List Char)) :
    (rejectCredentialRequest s1 requestId note).1 = .error .RequestNotPending := by
  have hpf : ∀ r ∈ xs, (r.id == requestId) = false := by
    intro r hr
    simp [← hid, hfr r hr]
  have hidx : (xs ++ [R]).findIdx? (fun req => req.id == requestId) =
      some xs.length :=
    findIdx?_append_singleton _ _ _ hpf (by simp [hid])
  have hget : (xs ++ [R])[xs.length]? = some R := List.getElem?_concat_length xs R
  simp [rejectCredentialRequest, hreq, hidx, hget, hp]

/-- C2: a submitted request is created with status `pending`; approving it
once succeeds, returns the request marked `approved` and appends exactly
one new issued credential whose status is `issued`; a second approve on
the same request id fails with the not-pending error, and rejecting the
already-approved request fails with the not-pending error as well.  The
`hfresh` hypothesis says the assigned request id is not already taken. -/
theorem request_lifecycle (s : Store) (input : CredentialRequestInput)
    (newId now credId credDate credId2 credDate2 : List Char)
    (note : Option (List Char))
    (hfresh : ∀ r ∈ s.credentialRequests, r.id ≠ newId) :
    (submitCredentialRequest s input newId now).1.status = ReqStatus.pending ∧
    (approveCredentialRequest (submitCredentialRequest s input newId now).2
        newId credId credDate).1 =
      .ok ({ (submitCredentialRequest s input newId now).1 with
              status := ReqStatus.approved },
           credentialOfRequest (submitCredentialRequest s input newId now).1
             credId credDate) ∧
    (credentialOfRequest (submitCredentialRequest s input newId now).1
        credId credDate).status = CredStatus.issued ∧
    (approveCredentialRequest (submitCredentialRequest s input newId now).2
        newId credId credDate).2.issuedCredentials =
      (submitCredentialRequest s input newId now).2.issuedCredentials ++
        [credentialOfRequest (submitCredentialRequest s input newId now).1
          credId credDate] ∧
    (approveCredentialRequest
        (approveCredentialRequest (submitCredentialRequest s input newId now).2
          newId credId credDate).2 newId credId2 credDate2).1 =
      .error .RequestNotPending ∧
    (rejectCredentialRequest
        (approveCredentialRequest (submitCredentialRequest s input newId now).2
          newId credId credDate).2 newId note).1 =
      .error .RequestNotPending := by
  have hfr : ∀ r ∈ s.credentialRequests,
      r.id ≠ (submitCredentialRequest s input newId now).1.id := hfresh
  have happ := @approve_of_requests_eq
    (submitCredentialRequest s input newId now).2 s.credentialRequests
    (submitCredentialRequest s input newId now).1 newId
    rfl hfr rfl rfl credId credDate
  have hreq2 : (approveCredentialRequest (submitCredentialRequest s input newId now).2
      newId credId credDate).2.credentialRequests =
      s.credentialRequests ++
        [{ (submitCredentialRequest s input newId now).1 with
            status := ReqStatus.approved }] := by
    rw [happ]
  refine ⟨rfl, ?_, rfl, ?_, ?_, ?_⟩
  · rw [happ]
  · rw [happ]
  · exact @approve_nonpending
      (approveCredentialRequest (submitCredentialRequest s input newId now).2
        newId credId credDate).2 s.credentialRequests
      ({ (submitCredentialRequest s input newId now).1 with
          status := ReqStatus.approved }) newId
      hreq2 hfresh rfl (by simp) credId2 credDate2
  · exact @reject_nonpending
      (approveCredentialRequest (submitCredentialRequest s input newId now).2
        newId credId credDate).2 s.credentialRequests
      ({ (submitCredentialRequest s input newId now).1 with
          status := ReqStatus.approved }) newId
      hreq2 hfresh rfl (by simp) note

/-- Witness for C2: the full submit / approve / re-approve / reject
scenario on the sample store with concrete ids. -/
theorem request_lifecycle_witness :
    (submitCredentialRequest sampleStore sampleInput (str "r1") (str "t1")).1.status =
      ReqStatus.pending ∧
    (approveCredentialRequest
        (submitCredentialRequest sampleStore sampleInput (str "r1") (str "t1")).2
        (str "r1") (str "c1") (str "t2")).1 =
      .ok ({ (submitCredentialRequest sampleStore sampleInput (str "r1") (str "t1")).1 with
              status := ReqStatus.approved },
           credentialOfRequest
             (submitCredentialRequest sampleStore sampleInput (str "r1") (str "t1")).1
             (str "c1") (str "t2")) ∧
    (approveCredentialRequest
        (approveCredentialRequest
          (submitCredentialRequest sampleStore sampleInput (str "r1") (str "t1")).2
          (str "r1") (str "c1") (str "t2")).2 (str "r1") (str "c2") (str "t3")).1 =
      .error .RequestNotPending ∧
    (rejectCredentialRequest
        (approveCredentialRequest
          (submitCredentialRequest sampleStore sampleInput (str "r1") (str "t1")).2
          (str "r1") (str "c1") (str "t2")).2 (str "r1") none).1 =
      .error .RequestNotPending := by
  have h := request_lifecycle sampleStore sampleInput (str "r1") (str "t1")
    (str "c1") (str "t2") (str "c2") (str "t3") none (by decide)
  exact ⟨h.1, h.2.1, h.2.2.2.2.1, h.2.2.2.2.2⟩

end CredVault
